import Mathlib

/-!
Verification of the workflow execution engine of the textanalyze repository.

The definitions below are a shallow embedding of the Python sources
src/workflow/nodes.py, src/workflow/pipeline.py and the batch-driving part of
src/main.py (TextFactorAnalyzer.analyze_batch / _process_single_item):

* Python dictionaries are modelled as association lists with overwrite-on-set
  semantics (a single binding per key).
* Python values stored in the workflow context are modelled by the inductive
  type PyValue, together with Python truthiness.
* A handler is modelled as a function from the invocation index (how many
  times it has been invoked so far by the surrounding execute call) and the
  context to an outcome that either returns a NodeResult or raises an
  exception carrying a message; this captures stateful handlers that fail on
  their first invocations and succeed later.
* The pipeline run loop of WorkflowPipeline.run is modelled with explicit
  fuel; a run that exhausts its fuel corresponds to a Python execution that
  has not yet terminated and is modelled as Option.none.  The model also
  carries ghost instrumentation (the list of per-step context snapshots and
  node results, and the number of times the on_complete hook list was
  triggered) used only to state properties; the non-ghost components mirror
  the Python code.
* Hook callbacks and wall-clock timestamps are observational only in the
  source (hook exceptions are swallowed, timestamps decide nothing); they are
  not modelled beyond the on_complete trigger count.
-/

/-- Python values as stored in the workflow context (restricted to the
constructors the engine inspects: the engine only ever uses truthiness). -/
inductive PyValue where
  | none : PyValue
  | bool (b : Bool) : PyValue
  | int (n : Int) : PyValue
  | str (s : String) : PyValue
deriving DecidableEq, Repr

/-- Python truthiness of a value. -/
def PyValue.truthy : PyValue → Bool
  | .none => false
  | .bool b => b
  | .int n => decide (n ≠ 0)
  | .str s => decide (s ≠ "")

/-- Association-list lookup, modelling Python dict access (a context holds at
most one binding per key because updates go through assocSet). -/
def assocGet {α : Type} : List (String × α) → String → Option α
  | [], _ => Option.none
  | (k, v) :: rest, j => if k = j then some v else assocGet rest j

/-- Association-list overwrite-or-append, modelling Python dict item
assignment. -/
def assocSet {α : Type} : List (String × α) → String → α → List (String × α)
  | [], k, v => [(k, v)]
  | (k', v') :: rest, k, v =>
      if k' = k then (k, v) :: rest else (k', v') :: assocSet rest k v

/-- The workflow context: a Python dict from string keys to values. -/
abbrev Ctx := List (String × PyValue)

/-- Python dict.update; bindings of the argument are written left to right,
later bindings win (matching Python dict semantics). -/
def ctxUpdate (c : Ctx) (d : List (String × PyValue)) : Ctx :=
  d.foldl (fun acc kv => assocSet acc kv.1 kv.2) c

/-- NodeStatus from workflow/nodes.py. -/
inductive NodeStatus where
  | pending : NodeStatus
  | running : NodeStatus
  | success : NodeStatus
  | failed : NodeStatus
  | skipped : NodeStatus
deriving DecidableEq, Repr

/-- NodeResult from workflow/nodes.py: status, data merged into the context,
optional error message, optional dynamic next node. -/
structure NodeResult where
  status : NodeStatus
  data : List (String × PyValue)
  error : Option String
  next_node : Option String
deriving DecidableEq, Repr

/-- Outcome of one handler invocation: a returned NodeResult or a raised
exception whose str() is the given message. -/
inductive HandlerOutcome where
  | ret (r : NodeResult) : HandlerOutcome
  | exc (msg : String) : HandlerOutcome

/-- WorkflowNode from workflow/nodes.py.  The handler takes the invocation
index (number of previous invocations within one execute call) and the
context. -/
structure WorkflowNode where
  name : String
  handler : Nat → Ctx → HandlerOutcome
  next_node : Option String
  condition_field : Option String
  condition_true : Option String
  condition_false : Option String
  retry_count : Nat

/-- Python truthiness of an Optional[str]: None and the empty string are
falsy. -/
def truthyStr : Option String → Bool
  | Option.none => false
  | some s => decide (s ≠ "")

/-- The error message built at the end of WorkflowNode.execute when every
attempt raised: the f-string with the retry count and the last error. -/
def retryFailMessage (retryCount : Nat) (lastError : String) : String :=
  "节点执行失败（重试" ++ toString retryCount ++ "次）: " ++ lastError

/-- The retry loop of WorkflowNode.execute.  fuel is max_attempts minus the
attempts already made, invoked counts the invocations performed so far, and
lastError is str() of the last exception.  Returns the NodeResult together
with the total number of handler invocations performed. -/
def executeLoop (retryCount : Nat) (h : Nat → HandlerOutcome) :
    Nat → Nat → String → NodeResult × Nat
  | 0, invoked, lastError =>
      (⟨NodeStatus.failed, [], some (retryFailMessage retryCount lastError),
        Option.none⟩, invoked)
  | fuel + 1, invoked, _ =>
      match h invoked with
      | .ret r => (r, invoked + 1)
      | .exc msg => executeLoop retryCount h fuel (invoked + 1) msg

/-- WorkflowNode.execute from workflow/nodes.py: invoke the handler, catching
exceptions and retrying up to retry_count additional times; the second
component is the number of handler invocations performed (ghost). -/
def WorkflowNode.execute (n : WorkflowNode) (ctx : Ctx) : NodeResult × Nat :=
  executeLoop n.retry_count (fun i => n.handler i ctx) (n.retry_count + 1) 0 "None"

/-- WorkflowNode.get_next_node from workflow/nodes.py: dynamic override first
(if truthy), then the conditional branch on context.get(condition_field,
False), then the static default. -/
def WorkflowNode.get_next_node (n : WorkflowNode) (ctx : Ctx)
    (result : NodeResult) : Option String :=
  if truthyStr result.next_node then result.next_node
  else if truthyStr n.condition_field then
    let conditionValue :=
      (assocGet ctx (n.condition_field.getD "")).getD (PyValue.bool false)
    if conditionValue.truthy then n.condition_true else n.condition_false
  else n.next_node

/-- Substring test on character lists (needle occurs contiguously in the
haystack). -/
def listContainsSub (needle : List Char) : List Char → Bool
  | [] => needle.isPrefixOf []
  | c :: t => needle.isPrefixOf (c :: t) || listContainsSub needle t

/-- Substring test on strings. -/
def strContains (hay sub : String) : Bool :=
  listContainsSub sub.data hay.data

/-- ExecutionRecord from workflow/pipeline.py, restricted to the fields that
carry information (node name, final status, error); wall-clock timestamps and
durations are not modelled. -/
structure ExecutionRecord where
  node_name : String
  status : NodeStatus
  error : Option String
deriving DecidableEq, Repr

/-- Ghost observation of one executed node within a run: the context it was
executed in, the NodeResult its execute call returned, and the context after
merging the result data. -/
structure StepInfo where
  ctxBefore : Ctx
  result : NodeResult
  ctxAfter : Ctx
deriving DecidableEq, Repr

/-- PipelineResult from workflow/pipeline.py (timestamps and durations not
modelled). -/
structure PipelineResult where
  success : Bool
  context : Ctx
  execution_log : List ExecutionRecord
  final_node : String
  error : Option String
deriving DecidableEq, Repr

/-- WorkflowPipeline from workflow/pipeline.py: a name, the registered node
mapping, and the configured start node. -/
structure WorkflowPipeline where
  name : String
  nodes : List (String × WorkflowNode)
  start_node : Option String

/-- WorkflowPipeline.register: store the node under its name. -/
def WorkflowPipeline.register (p : WorkflowPipeline) (n : WorkflowNode) :
    WorkflowPipeline :=
  ⟨p.name, assocSet p.nodes n.name n, p.start_node⟩

/-- The error message of the run loop when the current node name is not
registered. -/
def unknownNodeMessage (nodeName : String) : String :=
  "节点 " ++ nodeName ++ " 不存在"

/-- The error message of the immediate configuration-error return of run when
no start node is available. -/
def noStartMessage : String := "未设置起始节点"

/-- Everything the while loop of WorkflowPipeline.run has produced when it
exits: the final context, the execution log, the final node name, the
terminating error (none on success), and the ghost step observations. -/
structure LoopOut where
  ctx : Ctx
  log : List ExecutionRecord
  finalNode : String
  errorMsg : Option String
  steps : List StepInfo

/-- The while loop of WorkflowPipeline.run, with explicit fuel.  Mirrors the
source: unknown node breaks with an error and no record; a node is executed,
its data merged into the context (only when non-empty, as in the source),
a record appended; a Failed status breaks with the result error; otherwise
the next node is resolved via get_next_node and the walk continues while the
name is truthy.  Option.none models a loop that has not terminated within the
given fuel. -/
def runLoop (p : WorkflowPipeline) :
    Nat → String → Ctx → List ExecutionRecord → String → List StepInfo →
    Option LoopOut
  | 0, _, _, _, _, _ => Option.none
  | fuel + 1, current, ctxIn, log, finalPrev, steps =>
      match assocGet p.nodes current with
      | Option.none =>
          some ⟨ctxIn, log, finalPrev, some (unknownNodeMessage current), steps⟩
      | some node =>
          let res := (node.execute ctxIn).1
          let ctxNext := if res.data = [] then ctxIn else ctxUpdate ctxIn res.data
          let record : ExecutionRecord := ⟨node.name, res.status, res.error⟩
          let stepsNext := steps ++ [⟨ctxIn, res, ctxNext⟩]
          if res.status = NodeStatus.failed then
            some ⟨ctxNext, log ++ [record], current, res.error, stepsNext⟩
          else
            match node.get_next_node ctxNext res with
            | Option.none =>
                some ⟨ctxNext, log ++ [record], current, Option.none, stepsNext⟩
            | some nxt =>
                if nxt = "" then
                  some ⟨ctxNext, log ++ [record], current, Option.none, stepsNext⟩
                else
                  runLoop p fuel nxt ctxNext (log ++ [record]) current stepsNext

/-- The observable outcome of one WorkflowPipeline.run call: the returned
PipelineResult (none when the walk did not terminate within the fuel), the
number of times the on_complete hook list was triggered (ghost), and the
ghost step observations. -/
structure RunOut where
  result : Option PipelineResult
  onCompleteCount : Nat
  steps : List StepInfo

/-- WorkflowPipeline.run from workflow/pipeline.py: resolve the current node
as start_node-argument or self.start_node (Python or, so None and the empty
string fall through), return the configuration-error result immediately (and
without firing on_complete) when neither is truthy, otherwise walk the graph;
on termination success is the absence of a terminating error and on_complete
is triggered exactly once. -/
def WorkflowPipeline.run (p : WorkflowPipeline) (ctx : Ctx)
    (startOverride : Option String) (fuel : Nat) : RunOut :=
  let current := if truthyStr startOverride then startOverride else p.start_node
  match current with
  | Option.none => ⟨some ⟨false, ctx, [], "", some noStartMessage⟩, 0, []⟩
  | some s =>
      if s = "" then ⟨some ⟨false, ctx, [], "", some noStartMessage⟩, 0, []⟩
      else
        match runLoop p fuel s ctx [] "" [] with
        | Option.none => ⟨Option.none, 0, []⟩
        | some out =>
            ⟨some ⟨out.errorMsg.isNone, out.ctx, out.log, out.finalNode,
              out.errorMsg⟩, 1, out.steps⟩

/-- TextFactorAnalyzer._process_single_item from main.py: build the context
holding the news item, run the pipeline once, and return the run's success
flag (every exception is caught and yields False; in the model the only
non-returning case is fuel exhaustion, mapped to False as well). -/
def processSingleItem (p : WorkflowPipeline) (fuel : Nat) (item : PyValue) :
    Bool :=
  match (p.run [("news_item", item)] Option.none fuel).result with
  | some res => res.success
  | Option.none => false

/-- The observable outcome of TextFactorAnalyzer.analyze_batch: the item
count, one entry per pipeline run performed in submission order (ghost), the
success/failure tally computed by the parallel collection loop (none when no
tally is computed), and the keys of the dictionary the method returns. -/
structure BatchOut where
  total : Nat
  runs : List Bool
  tallied : Option (Nat × Nat)
  returnedKeys : List String
deriving DecidableEq, Repr

/-- TextFactorAnalyzer.analyze_batch from main.py: when parallel is enabled
and there is more than one item, one task per item is submitted and the
as_completed loop tallies success_count and fail_count (the tally counts
outcomes, so it does not depend on completion order); otherwise the items are
processed sequentially with no tally.  In both branches each item causes
exactly one pipeline.run call, and the method returns a dictionary with keys
summary and factor_outputs, not the counts. -/
def analyze_batch (p : WorkflowPipeline) (fuel : Nat) (parallelEnabled : Bool)
    (items : List PyValue) : BatchOut :=
  let total := items.length
  let outcomes := items.map (processSingleItem p fuel)
  if parallelEnabled && decide (total > 1) then
    ⟨total, outcomes, some (outcomes.count true, outcomes.count false),
      ["summary", "factor_outputs"]⟩
  else
    ⟨total, outcomes, Option.none, ["summary", "factor_outputs"]⟩

/-- Well-formedness of a ghost step observation: the after-context is the
before-context updated with the result data exactly as the run loop merges
it. -/
def WFStep (s : StepInfo) : Prop :=
  s.ctxAfter = if s.result.data = [] then s.ctxBefore
    else ctxUpdate s.ctxBefore s.result.data

/-- Concrete node for the C1 witness: raises on its first invocation and
succeeds on the second, with retry budget 1. -/
def retryThenSucceedNode : WorkflowNode :=
  ⟨"w1",
    fun i _ => if i < 1 then HandlerOutcome.exc ("e" ++ toString i)
      else HandlerOutcome.ret
        ⟨NodeStatus.success, [("k", PyValue.int 1)], Option.none, Option.none⟩,
    Option.none, Option.none, Option.none, Option.none, 1⟩

/-- Concrete node for the C1 witness: raises on every invocation, retry
budget 1. -/
def alwaysRaiseNode : WorkflowNode :=
  ⟨"w2", fun _ _ => HandlerOutcome.exc "boom",
    Option.none, Option.none, Option.none, Option.none, 1⟩

/-- Concrete node for C7: named crawl, raises on every invocation, retry
budget 0. -/
def crawlAlwaysRaising : WorkflowNode :=
  ⟨"crawl", fun _ _ => HandlerOutcome.exc "boom",
    Option.none, Option.none, Option.none, Option.none, 0⟩

/-- The Result of the C2 scenario: a handler result carrying
next_override C. -/
def scenarioResult : NodeResult :=
  ⟨NodeStatus.success, [], Option.none, some "C"⟩

/-- The node of the C2 scenario: branch on field x with branches A and B. -/
def scenarioBranchNode : WorkflowNode :=
  ⟨"b", fun _ _ => HandlerOutcome.ret scenarioResult,
    Option.none, some "x", some "A", some "B", 0⟩

/-- Concrete NodeResult for the C9 witness: a returned (not raised) Failed
result with an error message. -/
def returnedFailedResult : NodeResult :=
  ⟨NodeStatus.failed, [], some "handler says no", Option.none⟩

/-- Concrete node for the C9 witness: returns a Failed result on every
invocation, with a positive retry budget. -/
def returnFailedNode : WorkflowNode :=
  ⟨"w9", fun _ _ => HandlerOutcome.ret returnedFailedResult,
    Option.none, Option.none, Option.none, Option.none, 3⟩

/-- Concrete node for C3: succeeds, writes one key, and dynamically routes to
an unregistered node name. -/
def ghostNextNode : WorkflowNode :=
  ⟨"a", fun _ _ => HandlerOutcome.ret
      ⟨NodeStatus.success, [("w", PyValue.int 7)], Option.none, some "ghost"⟩,
    Option.none, Option.none, Option.none, Option.none, 0⟩

/-- Concrete pipeline for C3: one successful node that routes to an
unregistered name. -/
def ghostPipeline : WorkflowPipeline := ⟨"p3", [("a", ghostNextNode)], some "a"⟩

/-- Concrete node for C4: returns a Failed Result whose error is absent. -/
def failedNoneErrorNode : WorkflowNode :=
  ⟨"a", fun _ _ => HandlerOutcome.ret
      ⟨NodeStatus.failed, [], Option.none, Option.none⟩,
    Option.none, Option.none, Option.none, Option.none, 0⟩

/-- Concrete pipeline for the C4 counterexample. -/
def failedNoneErrorPipeline : WorkflowPipeline :=
  ⟨"p4", [("a", failedNoneErrorNode)], some "a"⟩

/-- Concrete node for the C4 witness: returns a Failed Result carrying an
error message. -/
def failedWithErrorNode : WorkflowNode :=
  ⟨"a", fun _ _ => HandlerOutcome.ret
      ⟨NodeStatus.failed, [], some "err", Option.none⟩,
    Option.none, Option.none, Option.none, Option.none, 0⟩

/-- Concrete pipeline for the C4 witness. -/
def failedWithErrorPipeline : WorkflowPipeline :=
  ⟨"p4w", [("a", failedWithErrorNode)], some "a"⟩

/-- Concrete node writing one key and terminating (for C5 and C6
witnesses). -/
def mergeNode : WorkflowNode :=
  ⟨"a", fun _ _ => HandlerOutcome.ret
      ⟨NodeStatus.success, [("k", PyValue.int 1)], Option.none, Option.none⟩,
    Option.none, Option.none, Option.none, Option.none, 0⟩

/-- Concrete single-node pipeline for the C5 and C6 witnesses. -/
def mergePipeline : WorkflowPipeline := ⟨"p5", [("a", mergeNode)], some "a"⟩

/-- Concrete pipeline with no start node, for the C6 counterexample. -/
def emptyStartPipeline : WorkflowPipeline := ⟨"p6", [], Option.none⟩

/-- Concrete node for C10: returns a Failed Result with a non-empty data
mapping and an error message. -/
def failedDataNode : WorkflowNode :=
  ⟨"a", fun _ _ => HandlerOutcome.ret
      ⟨NodeStatus.failed, [("d", PyValue.int 3)], some "x", Option.none⟩,
    Option.none, Option.none, Option.none, Option.none, 0⟩

/-- Concrete pipeline for the C10 witness. -/
def failedDataPipeline : WorkflowPipeline :=
  ⟨"p10", [("a", failedDataNode)], some "a"⟩

/-- Concrete node for C8: succeeds iff the news_item context value is truthy,
otherwise returns a Failed Result. -/
def itemCheckNode : WorkflowNode :=
  ⟨"a", fun _ ctx =>
      if ((assocGet ctx "news_item").getD PyValue.none).truthy then
        HandlerOutcome.ret ⟨NodeStatus.success, [], Option.none, Option.none⟩
      else
        HandlerOutcome.ret ⟨NodeStatus.failed, [], some "bad", Option.none⟩,
    Option.none, Option.none, Option.none, Option.none, 0⟩

/-- Concrete pipeline for C8: one run per item, success depending on the
item. -/
def itemCheckPipeline : WorkflowPipeline :=
  ⟨"p8", [("a", itemCheckNode)], some "a"⟩

theorem assocGet_assocSet {α : Type} (l : List (String × α)) (k j : String)
    (v : α) :
    assocGet (assocSet l k v) j = if k = j then some v else assocGet l j := by
  induction l with
  | nil => simp [assocSet, assocGet]
  | cons hd tl ih =>
      obtain ⟨k', v'⟩ := hd
      by_cases hkk : k' = k
      · subst hkk
        by_cases hkj : k' = j <;> simp [assocSet, assocGet, hkj]
      · by_cases hkj : k' = j
        · subst hkj
          have hne : ¬ k = k' := fun h => hkk h.symm
          simp [assocSet, assocGet, hkk, hne]
        · simp [assocSet, assocGet, hkk, hkj, ih]

theorem assocGet_ctxUpdate_isSome (d : List (String × PyValue)) :
    ∀ (c : Ctx) (j : String), (assocGet c j).isSome = true →
      (assocGet (ctxUpdate c d) j).isSome = true := by
  induction d with
  | nil => intro c j h; simpa [ctxUpdate] using h
  | cons hd tl ih =>
      intro c j h
      obtain ⟨k, v⟩ := hd
      have hstep : ctxUpdate c ((k, v) :: tl) = ctxUpdate (assocSet c k v) tl := rfl
      rw [hstep]
      apply ih
      rw [assocGet_assocSet]
      by_cases hk : k = j <;> simp [hk, h]

theorem assocGet_eq_none_of_not_mem {α : Type} (l : List (String × α))
    (j : String) (h : j ∉ l.map Prod.fst) : assocGet l j = Option.none := by
  induction l with
  | nil => rfl
  | cons hd tl ih =>
      obtain ⟨k, v⟩ := hd
      simp only [List.map_cons, List.mem_cons] at h
      push_neg at h
      have hk : ¬ k = j := fun he => h.1 he.symm
      simp [assocGet, hk, ih h.2]

theorem assocGet_ctxUpdate_nodup (d : List (String × PyValue)) :
    ∀ (c : Ctx) (j : String), (d.map Prod.fst).Nodup →
      assocGet (ctxUpdate c d) j =
        (match assocGet d j with
          | some v => some v
          | Option.none => assocGet c j) := by
  induction d with
  | nil => intro c j _; simp [ctxUpdate, assocGet]
  | cons hd tl ih =>
      intro c j hn
      obtain ⟨k, v⟩ := hd
      simp only [List.map_cons, List.nodup_cons] at hn
      have hstep : ctxUpdate c ((k, v) :: tl) = ctxUpdate (assocSet c k v) tl := rfl
      rw [hstep, ih (assocSet c k v) j hn.2]
      by_cases hk : k = j
      · subst hk
        have : assocGet tl k = Option.none :=
          assocGet_eq_none_of_not_mem tl k hn.1
        simp [assocGet, this, assocGet_assocSet]
      · simp [assocGet, hk, assocGet_assocSet]

theorem executeLoop_all_exc (rc : Nat) (h : Nat → HandlerOutcome)
    (m : Nat → String) (hall : ∀ i, h i = HandlerOutcome.exc (m i)) :
    ∀ (fuel invoked : Nat) (le : String), 1 ≤ fuel →
      executeLoop rc h fuel invoked le =
        (⟨NodeStatus.failed, [],
          some (retryFailMessage rc (m (invoked + fuel - 1))), Option.none⟩,
          invoked + fuel) := by
  intro fuel
  induction fuel with
  | zero => intro invoked le hle; omega
  | succ f ihf =>
      intro invoked le _
      simp only [executeLoop, hall invoked]
      cases f with
      | zero => simp [executeLoop]
      | succ g =>
          rw [ihf (invoked + 1) (m invoked) (by omega)]
          have h1 : invoked + 1 + (g + 1) - 1 = invoked + (g + 1 + 1) - 1 := by omega
          have h2 : invoked + 1 + (g + 1) = invoked + (g + 1 + 1) := by omega
          rw [h1, h2]

theorem executeLoop_exc_then_ret (rc : Nat) (h : Nat → HandlerOutcome)
    (m : Nat → String) (res : NodeResult) :
    ∀ (j fuel invoked : Nat) (le : String),
      (∀ i, i < j → h (invoked + i) = HandlerOutcome.exc (m (invoked + i))) →
      h (invoked + j) = HandlerOutcome.ret res →
      j < fuel →
      executeLoop rc h fuel invoked le = (res, invoked + j + 1) := by
  intro j
  induction j with
  | zero =>
      intro fuel invoked le _ hret hlt
      cases fuel with
      | zero => omega
      | succ f =>
          have hret0 : h invoked = HandlerOutcome.ret res := by
            simpa using hret
          simp [executeLoop, hret0]
  | succ j ih =>
      intro fuel invoked le hexc hret hlt
      cases fuel with
      | zero => omega
      | succ f =>
          have h0 : h invoked = HandlerOutcome.exc (m invoked) := by
            simpa using hexc 0 (Nat.succ_pos j)
          simp only [executeLoop, h0]
          have hgoal := ih f (invoked + 1) (m invoked)
            (fun i hi => by
              have := hexc (i + 1) (by omega)
              have harith : invoked + (i + 1) = invoked + 1 + i := by omega
              rwa [harith] at this)
            (by
              have harith : invoked + (j + 1) = invoked + 1 + j := by omega
              rwa [harith] at hret)
            (by omega)
          rw [hgoal]
          have harith : invoked + 1 + j + 1 = invoked + (j + 1) + 1 := by omega
          rw [harith]

theorem isPrefixOf_append_self (a b : List Char) :
    a.isPrefixOf (a ++ b) = true := by
  induction a with
  | nil => cases b <;> rfl
  | cons c t ih => simp [List.isPrefixOf, ih]

theorem listContainsSub_append_mid (b : List Char) :
    ∀ (a c : List Char), listContainsSub b (a ++ b ++ c) = true := by
  intro a
  induction a with
  | nil =>
      intro c
      rcases hbc : b ++ c with _ | ⟨ch, t⟩
      · obtain ⟨hb, hc⟩ := List.append_eq_nil.mp hbc
        subst hb
        subst hc
        rfl
      · have hpre := isPrefixOf_append_self b c
        rw [hbc] at hpre
        have hstep : ([] : List Char) ++ b ++ c = b ++ c := by simp
        rw [hstep, hbc]
        show (b.isPrefixOf (ch :: t) || listContainsSub b t) = true
        rw [hpre, Bool.true_or]
  | cons ch t ih =>
      intro c
      have hstep : (ch :: t) ++ b ++ c = ch :: (t ++ b ++ c) := by simp
      rw [hstep]
      show (b.isPrefixOf (ch :: (t ++ b ++ c)) || listContainsSub b (t ++ b ++ c)) = true
      rw [ih c, Bool.or_true]

theorem strContains_append_mid (a b c : String) :
    strContains (a ++ b ++ c) b = true := by
  unfold strContains
  have hd : (a ++ b ++ c).data = a.data ++ b.data ++ c.data := by
    simp [String.data_append]
  rw [hd]
  exact listContainsSub_append_mid b.data a.data c.data

theorem retryFailMessage_contains_count (rc : Nat) (le : String) :
    strContains (retryFailMessage rc le) (toString rc) = true := by
  have hshape : retryFailMessage rc le =
      "节点执行失败（重试" ++ toString rc ++ ("次）: " ++ le) := by
    simp [retryFailMessage, String.append_assoc]
  rw [hshape]
  exact strContains_append_mid "节点执行失败（重试" (toString rc) ("次）: " ++ le)

theorem retryFailMessage_contains_error (rc : Nat) (le : String) :
    strContains (retryFailMessage rc le) le = true := by
  have hshape : retryFailMessage rc le =
      ("节点执行失败（重试" ++ toString rc ++ "次）: ") ++ le ++ "" := by
    simp [retryFailMessage, String.append_assoc, String.append_empty]
  rw [hshape]
  exact strContains_append_mid ("节点执行失败（重试" ++ toString rc ++ "次）: ") le ""

theorem count_false_eq_length_sub_count_true (l : List Bool) :
    l.count false = l.length - l.count true := by
  induction l with
  | nil => rfl
  | cons b t ih =>
      have hle : t.count true ≤ t.length := List.count_le_length ..
      cases b <;> (simp [List.count_cons, ih]; try omega)

theorem run_cases (p : WorkflowPipeline) (ctx : Ctx) (so : Option String)
    (fuel : Nat) :
    (∃ s out, (if truthyStr so then so else p.start_node) = some s ∧ ¬ s = ""
      ∧ runLoop p fuel s ctx [] "" [] = some out
      ∧ p.run ctx so fuel =
          ⟨some ⟨out.errorMsg.isNone, out.ctx, out.log, out.finalNode,
            out.errorMsg⟩, 1, out.steps⟩)
    ∨ (truthyStr (if truthyStr so then so else p.start_node) = false
      ∧ p.run ctx so fuel =
          ⟨some ⟨false, ctx, [], "", some noStartMessage⟩, 0, []⟩)
    ∨ (truthyStr (if truthyStr so then so else p.start_node) = true
      ∧ (p.run ctx so fuel).result = Option.none
      ∧ (p.run ctx so fuel).onCompleteCount = 0
      ∧ (p.run ctx so fuel).steps = []) := by
  unfold WorkflowPipeline.run
  cases hc : (if truthyStr so then so else p.start_node) with
  | none =>
      right; left
      simp [truthyStr]
  | some s =>
      by_cases hs : s = ""
      · right; left
        subst hs
        simp [truthyStr]
      · cases hloop : runLoop p fuel s ctx [] "" [] with
        | none =>
            right; right
            simp [truthyStr, hs, hloop]
        | some out =>
            left
            exact ⟨s, out, rfl, hs, hloop, by simp [hs, hloop]⟩

theorem runLoop_spec (p : WorkflowPipeline) (fuel : Nat) :
    ∀ (current : String) (ctxIn : Ctx) (log : List ExecutionRecord)
      (fin : String) (steps : List StepInfo) (out : LoopOut),
      runLoop p fuel current ctxIn log fin steps = some out →
      (∀ r ∈ log, r.status ≠ NodeStatus.failed) →
      (∀ s ∈ steps, WFStep s) →
      (∀ s ∈ steps, s.result.status ≠ NodeStatus.failed) →
      (∀ s ∈ out.steps, WFStep s)
      ∧ (∀ r ∈ out.log.dropLast, r.status ≠ NodeStatus.failed)
      ∧ (∀ s ∈ out.steps.dropLast, s.result.status ≠ NodeStatus.failed)
      ∧ (∀ s, out.steps.getLast? = some s →
          s.result.status = NodeStatus.failed → out.ctx = s.ctxAfter)
      ∧ ((out.errorMsg = Option.none
            ∧ (∀ r ∈ out.log, r.status ≠ NodeStatus.failed)
            ∧ (∀ s ∈ out.steps, s.result.status ≠ NodeStatus.failed))
        ∨ (∃ rec, out.log.getLast? = some rec
            ∧ rec.status = NodeStatus.failed ∧ out.errorMsg = rec.error)
        ∨ (∃ nm, assocGet p.nodes nm = Option.none
            ∧ out.errorMsg = some (unknownNodeMessage nm)
            ∧ (∀ r ∈ out.log, r.status ≠ NodeStatus.failed))) := by
  induction fuel with
  | zero =>
      intro current ctxIn log fin steps out hrun
      simp [runLoop] at hrun
  | succ f ih =>
      intro current ctxIn log fin steps out hrun h1 h2 h3
      rw [runLoop] at hrun
      cases hnode : assocGet p.nodes current with
      | none =>
          simp only [hnode] at hrun
          obtain rfl : (⟨ctxIn, log, fin, some (unknownNodeMessage current),
              steps⟩ : LoopOut) = out := Option.some.inj hrun
          refine ⟨h2, ?_, ?_, ?_, Or.inr (Or.inr ⟨current, hnode, rfl, h1⟩)⟩
          · intro r hr
            exact h1 r (List.dropLast_subset _ hr)
          · intro s hs
            exact h3 s (List.dropLast_subset _ hs)
          · intro s hso hfail
            exact absurd hfail (h3 s (List.mem_of_getLast?_eq_some hso))
      | some node =>
          simp only [hnode] at hrun
          set res := (node.execute ctxIn).1 with hres
          set ctxNext :=
            (if res.data = [] then ctxIn else ctxUpdate ctxIn res.data)
            with hctxN
          by_cases hfail : res.status = NodeStatus.failed
          · rw [if_pos hfail] at hrun
            obtain rfl : (⟨ctxNext, log ++ [⟨node.name, res.status, res.error⟩],
                current, res.error, steps ++ [⟨ctxIn, res, ctxNext⟩]⟩ : LoopOut)
                = out := Option.some.inj hrun
            refine ⟨?_, ?_, ?_, ?_, Or.inr (Or.inl
              ⟨⟨node.name, res.status, res.error⟩, List.getLast?_concat ..,
                hfail, rfl⟩)⟩
            · intro s hs
              rcases List.mem_append.mp hs with hmem | hmem
              · exact h2 s hmem
              · rw [List.mem_singleton.mp hmem]
                exact hctxN.symm
            · rw [List.dropLast_concat]
              exact h1
            · rw [List.dropLast_concat]
              exact h3
            · intro s hso hsf
              rw [List.getLast?_concat] at hso
              rw [← Option.some.inj hso]
          · rw [if_neg hfail] at hrun
            cases hnext : node.get_next_node ctxNext res with
            | none =>
                simp only [hnext] at hrun
                obtain rfl : (⟨ctxNext,
                    log ++ [⟨node.name, res.status, res.error⟩], current,
                    Option.none, steps ++ [⟨ctxIn, res, ctxNext⟩]⟩ : LoopOut)
                    = out := Option.some.inj hrun
                refine ⟨?_, ?_, ?_, ?_, Or.inl ⟨rfl, ?_, ?_⟩⟩
                · intro s hs
                  rcases List.mem_append.mp hs with hmem | hmem
                  · exact h2 s hmem
                  · rw [List.mem_singleton.mp hmem]
                    exact hctxN.symm
                · rw [List.dropLast_concat]
                  exact h1
                · rw [List.dropLast_concat]
                  exact h3
                · intro s hso hsf
                  rw [List.getLast?_concat] at hso
                  rw [← Option.some.inj hso] at hsf
                  exact absurd hsf hfail
                · intro r hr
                  rcases List.mem_append.mp hr with hmem | hmem
                  · exact h1 r hmem
                  · rw [List.mem_singleton.mp hmem]
                    exact hfail
                · intro s hs
                  rcases List.mem_append.mp hs with hmem | hmem
                  · exact h3 s hmem
                  · rw [List.mem_singleton.mp hmem]
                    exact hfail
            | some nxt =>
                simp only [hnext] at hrun
                by_cases hempty : nxt = ""
                · rw [if_pos hempty] at hrun
                  obtain rfl : (⟨ctxNext,
                      log ++ [⟨node.name, res.status, res.error⟩], current,
                      Option.none, steps ++ [⟨ctxIn, res, ctxNext⟩]⟩ : LoopOut)
                      = out := Option.some.inj hrun
                  refine ⟨?_, ?_, ?_, ?_, Or.inl ⟨rfl, ?_, ?_⟩⟩
                  · intro s hs
                    rcases List.mem_append.mp hs with hmem | hmem
                    · exact h2 s hmem
                    · rw [List.mem_singleton.mp hmem]
                      exact hctxN.symm
                  · rw [List.dropLast_concat]
                    exact h1
                  · rw [List.dropLast_concat]
                    exact h3
                  · intro s hso hsf
                    rw [List.getLast?_concat] at hso
                    rw [← Option.some.inj hso] at hsf
                    exact absurd hsf hfail
                  · intro r hr
                    rcases List.mem_append.mp hr with hmem | hmem
                    · exact h1 r hmem
                    · rw [List.mem_singleton.mp hmem]
                      exact hfail
                  · intro s hs
                    rcases List.mem_append.mp hs with hmem | hmem
                    · exact h3 s hmem
                    · rw [List.mem_singleton.mp hmem]
                      exact hfail
                · rw [if_neg hempty] at hrun
                  refine ih nxt ctxNext
                    (log ++ [⟨node.name, res.status, res.error⟩]) current
                    (steps ++ [⟨ctxIn, res, ctxNext⟩]) out hrun ?_ ?_ ?_
                  · intro r hr
                    rcases List.mem_append.mp hr with hmem | hmem
                    · exact h1 r hmem
                    · rw [List.mem_singleton.mp hmem]
                      exact hfail
                  · intro s hs
                    rcases List.mem_append.mp hs with hmem | hmem
                    · exact h2 s hmem
                    · rw [List.mem_singleton.mp hmem]
                      exact hctxN.symm
                  · intro s hs
                    rcases List.mem_append.mp hs with hmem | hmem
                    · exact h3 s hmem
                    · rw [List.mem_singleton.mp hmem]
                      exact hfail

theorem mem_getLast_of_dropLast_not {α : Type} (P : α → Prop) (l : List α)
    (a : α) (hdl : ∀ r ∈ l.dropLast, ¬ P r) (hmem : a ∈ l) (hP : P a) :
    l.getLast? = some a := by
  have hne : l ≠ [] := List.ne_nil_of_mem hmem
  have hsplit := List.dropLast_append_getLast hne
  rw [← hsplit] at hmem
  rcases List.mem_append.mp hmem with h | h
  · exact absurd hP (hdl a h)
  · rw [List.mem_singleton.mp h]
    exact List.getLast?_eq_getLast l hne

/-- C1: for every node with retry budget r and every context, a handler that
raises on its first r invocations and succeeds on invocation r+1 yields that
successful Result (after exactly r+1 invocations); a handler that raises on
every invocation is invoked exactly r+1 times and execute then returns a
Failed Result whose error message includes the retry count and the last
error. -/
theorem c1_retry_budget (n : WorkflowNode) (ctx : Ctx) (m : Nat → String)
    (res : NodeResult) :
    ((∀ i, i < n.retry_count → n.handler i ctx = HandlerOutcome.exc (m i)) →
      n.handler n.retry_count ctx = HandlerOutcome.ret res →
      res.status = NodeStatus.success →
      n.execute ctx = (res, n.retry_count + 1))
    ∧ ((∀ i, n.handler i ctx = HandlerOutcome.exc (m i)) →
      n.execute ctx =
        (⟨NodeStatus.failed, [],
          some (retryFailMessage n.retry_count (m n.retry_count)),
          Option.none⟩, n.retry_count + 1)
      ∧ strContains (retryFailMessage n.retry_count (m n.retry_count))
          (toString n.retry_count) = true
      ∧ strContains (retryFailMessage n.retry_count (m n.retry_count))
          (m n.retry_count) = true) := by
  constructor
  · intro hexc hret _
    unfold WorkflowNode.execute
    have := executeLoop_exc_then_ret n.retry_count (fun i => n.handler i ctx)
      m res n.retry_count (n.retry_count + 1) 0 "None"
      (fun i hi => by simpa using hexc i hi)
      (by simpa using hret) (by omega)
    simpa using this
  · intro hall
    refine ⟨?_, retryFailMessage_contains_count .., retryFailMessage_contains_error ..⟩
    unfold WorkflowNode.execute
    have := executeLoop_all_exc n.retry_count (fun i => n.handler i ctx) m
      (fun i => hall i) (n.retry_count + 1) 0 "None" (by omega)
    simpa using this

/-- C1 witness: with retry budget 1, a handler raising once then succeeding
yields the successful Result after 2 invocations, and a handler always
raising yields the Failed Result with the retry-count message after 2
invocations. -/
theorem c1_retry_budget_witness :
    retryThenSucceedNode.execute [] =
      (⟨NodeStatus.success, [("k", PyValue.int 1)], Option.none, Option.none⟩, 2)
    ∧ alwaysRaiseNode.execute [] =
      (⟨NodeStatus.failed, [], some (retryFailMessage 1 "boom"), Option.none⟩, 2) := by
  constructor
  · exact (c1_retry_budget retryThenSucceedNode []
      (fun i => "e" ++ toString i)
      ⟨NodeStatus.success, [("k", PyValue.int 1)], Option.none, Option.none⟩).1
      (fun i hi => by
        have h0 : i = 0 := Nat.lt_one_iff.mp hi
        subst h0
        rfl)
      rfl rfl
  · exact ((c1_retry_budget alwaysRaiseNode [] (fun _ => "boom")
      ⟨NodeStatus.success, [], Option.none, Option.none⟩).2
      (fun i => rfl)).1

/-- C9: retries apply only to raised exceptions: a handler that returns
(rather than raises) a Result with status Failed is invoked exactly once by
execute, whatever the retry budget, and that Result is returned unchanged. -/
theorem c9_returned_failure_not_retried (n : WorkflowNode) (ctx : Ctx)
    (res : NodeResult) (h0 : n.handler 0 ctx = HandlerOutcome.ret res)
    (_hf : res.status = NodeStatus.failed) :
    n.execute ctx = (res, 1) := by
  unfold WorkflowNode.execute
  have := executeLoop_exc_then_ret n.retry_count (fun i => n.handler i ctx)
    (fun _ => "") res 0 (n.retry_count + 1) 0 "None"
    (fun i hi => absurd hi (Nat.not_lt_zero i))
    (by simpa using h0) (by omega)
  simpa using this

/-- C9 witness: a node with retry budget 3 whose handler returns a Failed
Result is invoked once and the Result, error message included, is returned
unchanged. -/
theorem c9_returned_failure_not_retried_witness :
    returnFailedNode.execute [] = (returnedFailedResult, 1) :=
  c9_returned_failure_not_retried returnFailedNode [] returnedFailedResult rfl rfl

/-- C7 counterexample: the node named crawl with retry budget 0 and an
always-raising handler surfaces a Failed Result whose error message does not
contain the node name crawl (the message only carries the retry count and
the last error). -/
theorem c7_counterexample :
    (crawlAlwaysRaising.execute []).1.status = NodeStatus.failed
    ∧ ((crawlAlwaysRaising.execute []).1.error.map
        (fun e => strContains e "crawl")) = some false
    ∧ ((crawlAlwaysRaising.execute []).1.error.map
        (fun e => strContains e "0")) = some true := by
  refine ⟨rfl, rfl, rfl⟩

/-- C7 amended: for every node whose handler raises on all of its
retry-budget-plus-one invocations, the Failed Result surfaced by execute
carries an error message that includes the retry count and the last error;
the node name is not part of the message (it appears only in the retry log
output), as the counterexample shows for the node named crawl. -/
theorem c7_failed_message_content (n : WorkflowNode) (ctx : Ctx)
    (m : Nat → String)
    (hall : ∀ i, n.handler i ctx = HandlerOutcome.exc (m i)) :
    (n.execute ctx).1.error =
      some (retryFailMessage n.retry_count (m n.retry_count))
    ∧ strContains (retryFailMessage n.retry_count (m n.retry_count))
        (toString n.retry_count) = true
    ∧ strContains (retryFailMessage n.retry_count (m n.retry_count))
        (m n.retry_count) = true := by
  refine ⟨?_, retryFailMessage_contains_count .., retryFailMessage_contains_error ..⟩
  unfold WorkflowNode.execute
  have := executeLoop_all_exc n.retry_count (fun i => n.handler i ctx) m
    (fun i => hall i) (n.retry_count + 1) 0 "None" (by omega)
  simp [this]

/-- C7 amended witness: for the crawl node the surfaced message is exactly
the retry-count message over the last error boom. -/
theorem c7_failed_message_content_witness :
    (crawlAlwaysRaising.execute []).1.error = some (retryFailMessage 0 "boom") :=
  (c7_failed_message_content crawlAlwaysRaising [] (fun _ => "boom")
    (fun _ => rfl)).1

/-- C2: next-node resolution obeys the three-tier precedence of
get_next_node: a truthy next_override in the Result is returned; otherwise a
configured (truthy) branch field selects branch_true or branch_false by the
truthiness of context[branch_field] with missing defaulting to False;
otherwise the static default is returned.  In particular, in the scenario
with branch_field x true in context, branches A/B, and a Result overriding to
C, the next node is C. -/
theorem c2_three_tier_precedence (n : WorkflowNode) (ctx : Ctx)
    (res : NodeResult) :
    (truthyStr res.next_node = true → n.get_next_node ctx res = res.next_node)
    ∧ (truthyStr res.next_node = false → truthyStr n.condition_field = true →
        n.get_next_node ctx res =
          (if ((assocGet ctx (n.condition_field.getD "")).getD
                (PyValue.bool false)).truthy
            then n.condition_true else n.condition_false))
    ∧ (truthyStr res.next_node = false → truthyStr n.condition_field = false →
        n.get_next_node ctx res = n.next_node)
    ∧ scenarioBranchNode.get_next_node [("x", PyValue.bool true)] scenarioResult
        = some "C" := by
  refine ⟨?_, ?_, ?_, rfl⟩
  · intro h1
    simp [WorkflowNode.get_next_node, h1]
  · intro h1 h2
    simp [WorkflowNode.get_next_node, h1, h2]
  · intro h1 h2
    simp [WorkflowNode.get_next_node, h1, h2]

/-- C2 witness: for the scenario node without an override, the branch field
decides; with x absent from the context the false branch B is selected. -/
theorem c2_three_tier_precedence_witness :
    scenarioBranchNode.get_next_node []
      ⟨NodeStatus.success, [], Option.none, Option.none⟩ = some "B" :=
  (c2_three_tier_precedence scenarioBranchNode []
    ⟨NodeStatus.success, [], Option.none, Option.none⟩).2.1 rfl rfl

/-- C3 counterexample: a run that resolves to an unregistered node name while
every executed node succeeded reports success = false (with the unknown-node
error), refuting the claim that the aggregate success flag is true iff no
executed node produced a Failed Result. -/
theorem c3_counterexample :
    ((ghostPipeline.run [] Option.none 5).result.map PipelineResult.success
      = some false)
    ∧ ((ghostPipeline.run [] Option.none 5).result.map
        (fun r => r.execution_log.all
          (fun rec => !(rec.status == NodeStatus.failed))) = some true)
    ∧ ((ghostPipeline.run [] Option.none 5).result.map PipelineResult.error
      = some (some (unknownNodeMessage "ghost"))) := by
  refine ⟨rfl, rfl, rfl⟩

/-- C3 amended: the aggregate success flag is true iff the run recorded no
terminating error message; a terminating error is exactly either the
(non-absent) error of a halting Failed record (necessarily the last record),
an unknown-node error for an unregistered resolved name, or the missing-start
configuration error.  In particular a run that resolves to an unregistered
node reports success = false even when no executed node failed, and a run
halting on a Failed record whose error is absent reports success = true. -/
theorem c3_success_characterization (p : WorkflowPipeline) (ctx : Ctx)
    (so : Option String) (fuel : Nat) (res : PipelineResult)
    (hres : (p.run ctx so fuel).result = some res) :
    (res.success = true ↔ res.error = Option.none)
    ∧ (res.error = Option.none →
        ∀ rec ∈ res.execution_log, rec.status = NodeStatus.failed →
          rec.error = Option.none)
    ∧ (res.error ≠ Option.none →
        (∃ rec, res.execution_log.getLast? = some rec
          ∧ rec.status = NodeStatus.failed ∧ res.error = rec.error)
        ∨ (∃ nm, assocGet p.nodes nm = Option.none
          ∧ res.error = some (unknownNodeMessage nm))
        ∨ (res.error = some noStartMessage ∧ res.execution_log = [])) := by
  rcases run_cases p ctx so fuel with
    ⟨s, out, hcur, hs, hloop, hrun⟩ | ⟨htr, hrun⟩ | ⟨htr, hnone, hcnt, hsteps⟩
  · rw [hrun] at hres
    obtain rfl := Option.some.inj hres
    obtain ⟨hwf, hdl, hds, hlast, htri⟩ :=
      runLoop_spec p fuel s ctx [] "" [] out hloop (by simp) (by simp) (by simp)
    refine ⟨?_, ?_, ?_⟩
    · show out.errorMsg.isNone = true ↔ out.errorMsg = Option.none
      cases hmsg : out.errorMsg <;> simp
    · intro herr rec hmem hrecf
      rcases htri with ⟨_, hall, _⟩ | ⟨rec', hl', hf', he'⟩ | ⟨nm, _, _, hall⟩
      · exact absurd hrecf (hall rec hmem)
      · have hlr : out.log.getLast? = some rec :=
          mem_getLast_of_dropLast_not (fun r => r.status = NodeStatus.failed)
            out.log rec hdl hmem hrecf
        have heq : rec' = rec := Option.some.inj (hl'.symm.trans hlr)
        subst heq
        rw [← he']
        exact herr
      · exact absurd hrecf (hall rec hmem)
    · intro herrne
      rcases htri with ⟨hnone', _, _⟩ | ⟨rec', hl', hf', he'⟩ | ⟨nm, hn, hmsg, _⟩
      · exact absurd hnone' herrne
      · exact Or.inl ⟨rec', hl', hf', he'⟩
      · exact Or.inr (Or.inl ⟨nm, hn, hmsg⟩)
  · rw [hrun] at hres
    obtain rfl := Option.some.inj hres
    refine ⟨by simp, ?_, ?_⟩
    · intro herr
      cases herr
    · intro _
      exact Or.inr (Or.inr ⟨rfl, rfl⟩)
  · rw [hnone] at hres
    cases hres

/-- C3 amended witness: for a concrete successful single-node run the success
flag is true and the error is absent, via the characterization. -/
theorem c3_success_characterization_witness :
    (⟨true, [("k", PyValue.int 1)], [⟨"a", NodeStatus.success, Option.none⟩],
      "a", Option.none⟩ : PipelineResult).success = true :=
  ((c3_success_characterization mergePipeline [] Option.none 5
    ⟨true, [("k", PyValue.int 1)], [⟨"a", NodeStatus.success, Option.none⟩],
      "a", Option.none⟩ rfl).1).mpr rfl

/-- C4 counterexample: a node returning a Failed Result whose error is absent
halts the walk, but the run reports success = true, refuting the claim that
any Failed node makes the aggregate success flag false. -/
theorem c4_counterexample :
    ((failedNoneErrorPipeline.run [] Option.none 5).result.map
      PipelineResult.success = some true)
    ∧ ((failedNoneErrorPipeline.run [] Option.none 5).result.map
        (fun r => r.execution_log.map ExecutionRecord.status)
      = some [NodeStatus.failed]) := by
  refine ⟨rfl, rfl⟩

/-- C4 amended: fail-fast holds for the walk: a Failed record is always the
last record of the run's trace (no subsequent node executes); and the
aggregate success flag is false provided the Failed Result carries an error
message — a Failed Result with an absent error still halts the walk but the
run reports success. -/
theorem c4_fail_fast (p : WorkflowPipeline) (ctx : Ctx) (so : Option String)
    (fuel : Nat) (res : PipelineResult) (rec : ExecutionRecord)
    (hres : (p.run ctx so fuel).result = some res)
    (hmem : rec ∈ res.execution_log)
    (hfail : rec.status = NodeStatus.failed) :
    res.execution_log.getLast? = some rec
    ∧ (rec.error ≠ Option.none → res.success = false) := by
  rcases run_cases p ctx so fuel with
    ⟨s, out, hcur, hs, hloop, hrun⟩ | ⟨htr, hrun⟩ | ⟨htr, hnone, hcnt, hsteps⟩
  · rw [hrun] at hres
    obtain rfl := Option.some.inj hres
    obtain ⟨hwf, hdl, hds, hlast, htri⟩ :=
      runLoop_spec p fuel s ctx [] "" [] out hloop (by simp) (by simp) (by simp)
    have hlr : out.log.getLast? = some rec :=
      mem_getLast_of_dropLast_not (fun r => r.status = NodeStatus.failed)
        out.log rec hdl hmem hfail
    refine ⟨hlr, ?_⟩
    intro hrecerr
    rcases htri with ⟨_, hall, _⟩ | ⟨rec', hl', hf', he'⟩ | ⟨nm, _, _, hall⟩
    · exact absurd hfail (hall rec hmem)
    · have heq : rec' = rec := Option.some.inj (hl'.symm.trans hlr)
      subst heq
      show out.errorMsg.isNone = false
      rw [he']
      cases herr : rec'.error with
      | none => exact absurd herr hrecerr
      | some e => rfl
    · exact absurd hfail (hall rec hmem)
  · rw [hrun] at hres
    obtain rfl := Option.some.inj hres
    cases hmem
  · rw [hnone] at hres
    cases hres

/-- C4 amended witness: for a concrete run halting on a Failed Result that
carries an error message, the Failed record is the last of the trace and the
run reports success = false. -/
theorem c4_fail_fast_witness :
    ([⟨"a", NodeStatus.failed, some "err"⟩] : List ExecutionRecord).getLast?
      = some ⟨"a", NodeStatus.failed, some "err"⟩
    ∧ (⟨false, [], [⟨"a", NodeStatus.failed, some "err"⟩], "a",
        some "err"⟩ : PipelineResult).success = false := by
  have h := c4_fail_fast failedWithErrorPipeline [] Option.none 5
    ⟨false, [], [⟨"a", NodeStatus.failed, some "err"⟩], "a", some "err"⟩
    ⟨"a", NodeStatus.failed, some "err"⟩ rfl (by simp) rfl
  exact ⟨h.1, h.2 (by simp)⟩

/-- C5: merge monotonicity: for every run and every executed node, the key
set of the context after the node's execution (with its Result data merged)
is a superset of the key set before; and the engine's merge (dict.update)
only adds or overwrites keys, never deleting a previously written key. -/
theorem c5_merge_monotonic (p : WorkflowPipeline) (ctx : Ctx)
    (so : Option String) (fuel : Nat) (res : PipelineResult)
    (_hres : (p.run ctx so fuel).result = some res) :
    (∀ s ∈ (p.run ctx so fuel).steps, ∀ k,
        (assocGet s.ctxBefore k).isSome = true →
        (assocGet s.ctxAfter k).isSome = true)
    ∧ (∀ (c : Ctx) (d : List (String × PyValue)) (k : String),
        (assocGet c k).isSome = true →
        (assocGet (ctxUpdate c d) k).isSome = true) := by
  refine ⟨?_, fun c d k h => assocGet_ctxUpdate_isSome d c k h⟩
  rcases run_cases p ctx so fuel with
    ⟨s, out, hcur, hs, hloop, hrun⟩ | ⟨htr, hrun⟩ | ⟨htr, hnone, hcnt, hsteps⟩
  · rw [hrun]
    obtain ⟨hwf, _, _, _, _⟩ :=
      runLoop_spec p fuel s ctx [] "" [] out hloop (by simp) (by simp) (by simp)
    intro st hst k hk
    have hwfst := hwf st hst
    unfold WFStep at hwfst
    rw [hwfst]
    by_cases hd : st.result.data = []
    · rw [if_pos hd]
      exact hk
    · rw [if_neg hd]
      exact assocGet_ctxUpdate_isSome _ _ _ hk
  · rw [hrun]
    intro st hst
    cases hst
  · rw [hsteps]
    intro st hst
    cases hst

/-- C5 witness: on a concrete run, merging the node's data preserves the key
written in the initial context. -/
theorem c5_merge_monotonic_witness :
    (assocGet (ctxUpdate [("z", PyValue.int 0)] [("k", PyValue.int 1)])
      "z").isSome = true :=
  (c5_merge_monotonic mergePipeline [("z", PyValue.int 0)] Option.none 5
    ⟨true, [("z", PyValue.int 0), ("k", PyValue.int 1)],
      [⟨"a", NodeStatus.success, Option.none⟩], "a", Option.none⟩ rfl).2
    [("z", PyValue.int 0)] [("k", PyValue.int 1)] "z" rfl

/-- C6 counterexample: a run invoked on a pipeline with neither a start
override nor a configured start node returns the configuration-error result
without firing the on_complete hooks at all, refuting the claim that they
fire exactly once per run regardless of outcome. -/
theorem c6_counterexample :
    (emptyStartPipeline.run [] Option.none 5).onCompleteCount = 0
    ∧ (emptyStartPipeline.run [] Option.none 5).result
      = some ⟨false, [], [], "", some noStartMessage⟩ := by
  refine ⟨rfl, rfl⟩

/-- C6 amended: the on_complete hooks are fired exactly once on every run
that starts walking (a truthy start node exists) and terminates; when neither
a start override nor a configured start node is set, the run returns the
configuration-error result immediately and the on_complete hooks are not
fired. -/
theorem c6_on_complete_hooks (p : WorkflowPipeline) (ctx : Ctx)
    (so : Option String) (fuel : Nat) :
    (truthyStr (if truthyStr so then so else p.start_node) = false →
      (p.run ctx so fuel).onCompleteCount = 0
      ∧ (p.run ctx so fuel).result
        = some ⟨false, ctx, [], "", some noStartMessage⟩)
    ∧ ((p.run ctx so fuel).result.isSome = true →
      truthyStr (if truthyStr so then so else p.start_node) = true →
      (p.run ctx so fuel).onCompleteCount = 1) := by
  rcases run_cases p ctx so fuel with
    ⟨s, out, hcur, hs, hloop, hrun⟩ | ⟨htr, hrun⟩ | ⟨htr, hnone, hcnt, hsteps⟩
  · constructor
    · intro hfalse
      rw [hcur] at hfalse
      simp [truthyStr, hs] at hfalse
    · intro _ _
      rw [hrun]
  · constructor
    · intro _
      rw [hrun]
      exact ⟨rfl, rfl⟩
    · intro _ htrue
      rw [htr] at htrue
      cases htrue
  · constructor
    · intro hfalse
      rw [htr] at hfalse
      cases hfalse
    · intro hsome _
      rw [hnone] at hsome
      cases hsome
  
/-- C6 amended witness: a concrete run with a configured start node fires the
on_complete hooks exactly once. -/
theorem c6_on_complete_hooks_witness :
    (mergePipeline.run [] Option.none 5).onCompleteCount = 1 :=
  (c6_on_complete_hooks mergePipeline [] Option.none 5).2 rfl rfl

/-- C10: no rollback of the failing node's own data: when a node of a run
returns a Failed Result with a non-empty data mapping (with distinct keys),
that data is merged into the context before the run halts, so the final
context of the failed run is exactly the failing node's pre-context updated
with its data: it contains each of the failing node's bindings and retains
every key present before the failing node ran. -/
theorem c10_failing_node_data_merged (p : WorkflowPipeline) (ctx : Ctx)
    (so : Option String) (fuel : Nat) (res : PipelineResult) (st : StepInfo)
    (hres : (p.run ctx so fuel).result = some res)
    (hst : st ∈ (p.run ctx so fuel).steps)
    (hfail : st.result.status = NodeStatus.failed)
    (hdata : st.result.data ≠ [])
    (hnodup : (st.result.data.map Prod.fst).Nodup) :
    res.context = ctxUpdate st.ctxBefore st.result.data
    ∧ (∀ k v, assocGet st.result.data k = some v →
        assocGet res.context k = some v)
    ∧ (∀ k, (assocGet st.ctxBefore k).isSome = true →
        (assocGet res.context k).isSome = true) := by
  rcases run_cases p ctx so fuel with
    ⟨s, out, hcur, hs, hloop, hrun⟩ | ⟨htr, hrun⟩ | ⟨htr, hnone, hcnt, hsteps⟩
  · rw [hrun] at hres hst
    obtain rfl := Option.some.inj hres
    obtain ⟨hwf, _, hds, hlast, _⟩ :=
      runLoop_spec p fuel s ctx [] "" [] out hloop (by simp) (by simp) (by simp)
    have hl : out.steps.getLast? = some st :=
      mem_getLast_of_dropLast_not
        (fun x => x.result.status = NodeStatus.failed) out.steps st hds hst hfail
    have hctx : out.ctx = st.ctxAfter := hlast st hl hfail
    have hwfst := hwf st hst
    unfold WFStep at hwfst
    rw [if_neg hdata] at hwfst
    have hcontext : out.ctx = ctxUpdate st.ctxBefore st.result.data := by
      rw [hctx, hwfst]
    refine ⟨hcontext, ?_, ?_⟩
    · intro k v hkv
      show assocGet out.ctx k = some v
      rw [hcontext, assocGet_ctxUpdate_nodup _ _ _ hnodup, hkv]
    · intro k hk
      show (assocGet out.ctx k).isSome = true
      rw [hcontext]
      exact assocGet_ctxUpdate_isSome _ _ _ hk
  · rw [hrun] at hst
    cases hst
  · rw [hsteps] at hst
    cases hst

/-- C10 witness: a concrete run whose only node fails with data d = 3 yields
a final context in which d is bound to 3 and the initially present key is
retained. -/
theorem c10_failing_node_data_merged_witness :
    assocGet (⟨false, [("z", PyValue.int 0), ("d", PyValue.int 3)],
      [⟨"a", NodeStatus.failed, some "x"⟩], "a",
      some "x"⟩ : PipelineResult).context "d" = some (PyValue.int 3) :=
  (c10_failing_node_data_merged failedDataPipeline [("z", PyValue.int 0)]
    Option.none 5
    ⟨false, [("z", PyValue.int 0), ("d", PyValue.int 3)],
      [⟨"a", NodeStatus.failed, some "x"⟩], "a", some "x"⟩
    ⟨[("z", PyValue.int 0)],
      ⟨NodeStatus.failed, [("d", PyValue.int 3)], some "x", Option.none⟩,
      [("z", PyValue.int 0), ("d", PyValue.int 3)]⟩
    rfl (by decide) rfl (by decide) (by decide)).2.1 "d" (PyValue.int 3) rfl

/-- C8 counterexample: in sequential mode with two items (one failing run,
one successful run) analyze_batch computes no success/failure tally at all
and its result is the summary/factor-outputs dictionary, not the counts
{total, success_count, failure_count} the claim says are reported in both
modes. -/
theorem c8_counterexample :
    (analyze_batch itemCheckPipeline 5 false [PyValue.int 1, PyValue.int 0]).runs
      = [true, false]
    ∧ (analyze_batch itemCheckPipeline 5 false
        [PyValue.int 1, PyValue.int 0]).tallied = Option.none
    ∧ (analyze_batch itemCheckPipeline 5 false
        [PyValue.int 1, PyValue.int 0]).returnedKeys
      = ["summary", "factor_outputs"] := by
  refine ⟨rfl, rfl, rfl⟩

/-- C8 amended: analyze_batch performs exactly one pipeline run per input
item (in submission order) in both modes, each run's outcome being that
run's aggregate success flag; in parallel mode with more than one item the
collection loop tallies success_count = number of successful runs and
fail_count = N - success_count (reported only on the console); otherwise no
tally is computed; and the method's return value is the dictionary with keys
summary and factor_outputs, not the counts. -/
theorem c8_batch_counts (p : WorkflowPipeline) (fuel : Nat)
    (parallelEnabled : Bool) (items : List PyValue) :
    (analyze_batch p fuel parallelEnabled items).runs
      = items.map (processSingleItem p fuel)
    ∧ (analyze_batch p fuel parallelEnabled items).runs.length = items.length
    ∧ (parallelEnabled = true → 1 < items.length →
        (analyze_batch p fuel parallelEnabled items).tallied
          = some ((items.map (processSingleItem p fuel)).count true,
              items.length
                - (items.map (processSingleItem p fuel)).count true))
    ∧ (¬ (parallelEnabled = true ∧ 1 < items.length) →
        (analyze_batch p fuel parallelEnabled items).tallied = Option.none)
    ∧ (analyze_batch p fuel parallelEnabled items).returnedKeys
      = ["summary", "factor_outputs"] := by
  by_cases hpar : parallelEnabled = true ∧ 1 < items.length
  · obtain ⟨hp, hn⟩ := hpar
    have hcond : (parallelEnabled && decide (items.length > 1)) = true := by
      rw [hp]
      simpa using hn
    have hfalse : (items.map (processSingleItem p fuel)).count false
        = items.length - (items.map (processSingleItem p fuel)).count true := by
      rw [count_false_eq_length_sub_count_true]
      simp
    refine ⟨?_, ?_, ?_, ?_, ?_⟩
    · simp [analyze_batch, hcond]
    · simp [analyze_batch, hcond]
    · intro _ _
      simp [analyze_batch, hcond, hfalse]
    · intro habs
      exact absurd ⟨hp, hn⟩ habs
    · simp [analyze_batch, hcond]
  · have hcond : (parallelEnabled && decide (items.length > 1)) = false := by
      rcases Bool.eq_false_or_eq_true parallelEnabled with hb | hb
      · have hlen : ¬ 1 < items.length := fun h => hpar ⟨hb, h⟩
        simp [hb, hlen]
      · simp [hb]
    refine ⟨?_, ?_, ?_, ?_, ?_⟩
    · simp [analyze_batch, hcond]
    · simp [analyze_batch, hcond]
    · intro hp hn
      exact absurd ⟨hp, hn⟩ hpar
    · intro _
      simp [analyze_batch, hcond]
    · simp [analyze_batch, hcond]

/-- C8 amended witness: a concrete parallel batch over two items, one
succeeding and one failing, performs one run per item and tallies one
success and one failure. -/
theorem c8_batch_counts_witness :
    (analyze_batch itemCheckPipeline 5 true
      [PyValue.int 1, PyValue.int 0]).tallied = some (1, 1) :=
  (c8_batch_counts itemCheckPipeline 5 true
    [PyValue.int 1, PyValue.int 0]).2.2.1 rfl (by decide)
